import Mathlib

/-!
Verification of the gallery-image repository: a shallow embedding of its
layout / art / image-resource core (src/src/Layout.ts, src/src/Art.ts,
src/src/ImageResource.ts, src/src/LayoutImage.ts, src/src/Util.ts) in Lean,
together with theorems settling the specification claims.

Conventions of the embedding:
* JavaScript numbers appearing as sizes, counts and pixel offsets are
  natural numbers (the code only ever produces nonnegative integers there;
  `Math.floor`-style divisions and subtractions are noted where they occur).
* Asynchronous operations that can reject are modelled with `Except String`
  (the string is the thrown error message) or `Option`.
* Byte buffers are an abstract type parameter `Buf`; the external sharp /
  image-size / fetch collaborators are an explicit environment of functions.
-/

namespace GalleryImage

/-! ## Util.minimumTileSize (src/src/Util.ts lines 72-76)

```
export const minimumTileSize = (widthOrHeight:number): number => {
    let minimumTileSize = widthOrHeight - (widthOrHeight % 16);
    while (minimumTileSize % 16 == 0 && minimumTileSize > 256) minimumTileSize /= 2;
    return minimumTileSize;
}
```
The loop only divides when the value is a multiple of 16, hence even, so the
JS float division `/= 2` is exact integer halving.  The loop is embedded with
a fuel argument (`fuel = m` suffices: every iteration at least halves a value
larger than 256, so far fewer than `m` steps occur). -/

def tileHalveAux : ℕ → ℕ → ℕ
  | 0, m => m
  | fuel + 1, m => if m % 16 = 0 ∧ 256 < m then tileHalveAux fuel (m / 2) else m

/-- The `while` loop of `Util.minimumTileSize`. -/
def tileHalve (m : ℕ) : ℕ := tileHalveAux m m

/-- `Util.minimumTileSize`: round down to a multiple of 16, then halve while
still a multiple of 16 and above 256. -/
def minimumTileSize (w : ℕ) : ℕ := tileHalve (w - w % 16)

theorem tileHalveAux_spec : ∀ (fuel m : ℕ), m ≤ fuel →
    (tileHalveAux fuel m ≤ 256 ∨ tileHalveAux fuel m % 16 ≠ 0) ∧
      ∃ k, tileHalveAux fuel m * 2 ^ k = m := by
  intro fuel
  induction fuel with
  | zero =>
      intro m hm
      have hm0 : m = 0 := Nat.le_zero.mp hm
      subst hm0
      exact ⟨Or.inl (by simp [tileHalveAux]), 0, by simp [tileHalveAux]⟩
  | succ fuel ih =>
      intro m hm
      rw [tileHalveAux]
      split
      · rename_i h
        obtain ⟨h16, h256⟩ := h
        have hdiv : m / 2 ≤ fuel := by omega
        obtain ⟨hbound, k, hk⟩ := ih (m / 2) hdiv
        refine ⟨hbound, k + 1, ?_⟩
        have heven : 2 ∣ m := by omega
        have : m / 2 * 2 = m := Nat.div_mul_cancel heven
        calc tileHalveAux fuel (m / 2) * 2 ^ (k + 1)
            = tileHalveAux fuel (m / 2) * 2 ^ k * 2 := by ring
          _ = m / 2 * 2 := by rw [hk]
          _ = m := this
      · rename_i h
        refine ⟨?_, 0, by ring⟩
        omega

/-- The halving loop keeps a factor relationship with its input and stops
only when the value is at most 256 or no longer a multiple of 16. -/
theorem tileHalve_spec (m : ℕ) :
    (tileHalve m ≤ 256 ∨ tileHalve m % 16 ≠ 0) ∧ ∃ k, tileHalve m * 2 ^ k = m :=
  tileHalveAux_spec m m (Nat.le_refl m)

/-- C6 amended: for every input, the tile edge is obtained from the input
rounded down to a multiple of 16 by repeated exact halving, and on exit it is
either at most 256 or no longer divisible by 16 (it is *not* always ≤ 256);
in particular input 1000 yields 248. -/
theorem minimumTileSize_halving (w : ℕ) :
    (minimumTileSize w ≤ 256 ∨ minimumTileSize w % 16 ≠ 0) ∧
      (∃ k, minimumTileSize w * 2 ^ k = w - w % 16) ∧
      minimumTileSize 1000 = 248 :=
  ⟨(tileHalve_spec (w - w % 16)).1, (tileHalve_spec (w - w % 16)).2, by decide⟩

/-- C6 counterexample: input 1040 gives tile edge 520, which exceeds 256, so
the claimed bound "at most 256" is false. -/
theorem minimumTileSize_counterexample :
    minimumTileSize 1040 = 520 ∧ ¬ minimumTileSize 1040 ≤ 256 := by decide

/-! ## Layout._makeRandomPattern (src/src/Layout.ts lines 245-294)

Geometry (the `ratio` path of `createFromOptions`, ratio given as the exact
fraction `a / b` with `a, b ≥ 1`; the default is `9/16`):

```
height = Math.ceil(Math.sqrt(totalNotes/options.ratio));
width = Math.ceil(height*options.ratio);
if ((width-2)*height >= totalNotes) width -= 2;
if ((width-1)*height >= totalNotes) width -= 1;
if (width*(height-1) >= totalNotes) height -= 1;
```

`Math.ceil (Math.sqrt x)` for `x = N*b/a` is the least natural `h` with
`h*h ≥ x`, i.e. with `h*h ≥ ⌈N*b/a⌉`; `ceilSqrt` below computes exactly that
least `h` (as the head of the ascending list of candidates).  In JS the
guards compare against possibly negative products; with `N ≥ 1` truncated
natural subtraction gives the same outcome (a negative product is `< N`
exactly when the truncated product `0` is). -/

/-- Ceiling division `⌈m / k⌉` on naturals. -/
def ceilDiv (m k : ℕ) : ℕ := (m + k - 1) / k

/-- Least `h` with `h * h ≥ k`, i.e. `Math.ceil (Math.sqrt k)`. -/
def ceilSqrt (k : ℕ) : ℕ :=
  (((List.range (k + 1)).filter fun h => decide (k ≤ h * h)).headI)

/-- Grid dimensions before shrinking: `(width, height)`. -/
def initialDims (N a b : ℕ) : ℕ × ℕ :=
  let h := ceilSqrt (ceilDiv (N * b) a)
  (ceilDiv (h * a) b, h)

/-- The three conditional shrink steps of `_makeRandomPattern`. -/
def shrinkDims (N : ℕ) (wh : ℕ × ℕ) : ℕ × ℕ :=
  let w1 := if N ≤ (wh.1 - 2) * wh.2 then wh.1 - 2 else wh.1
  let w2 := if N ≤ (w1 - 1) * wh.2 then w1 - 1 else w1
  let h2 := if N ≤ w2 * (wh.2 - 1) then wh.2 - 1 else wh.2
  (w2, h2)

/-- Final `(width, height)` computed by `_makeRandomPattern` from the pool
size `N` and the ratio `a / b`. -/
def gridDims (N a b : ℕ) : ℕ × ℕ := shrinkDims N (initialDims N a b)

/-! The fill loop.  `usedNotes` is a JS `Set` of pool indices; the code only
inserts an index after checking it is not present, so it is faithfully
modelled as a Lean list (membership = `Set.has`, length = `Set.size`).  The
inner `do {...} while (usedNotes.has(i))` resampling loop draws random
indices `< totalNotes` until it finds an unused one; its (terminating)
outcome is abstracted as a function `pick` of the current used set, and
`ValidPick` records exactly the postcondition the loop guarantees. -/

/-- Outcome of the `do/while` resampling loop: whenever unused indices
remain, `pick used` is an index below `total` that is not yet used. -/
def ValidPick (total : ℕ) (pick : List ℕ → ℕ) : Prop :=
  ∀ used : List ℕ, used.length < total → pick used < total ∧ pick used ∉ used

/-- Inner `for (col...)` loop of `_makeRandomPattern`: fills up to `w` cells
of one row, breaking once all pool indices are used.  Returns the row and
the updated used set. -/
def fillRow (pick : List ℕ → ℕ) (total : ℕ) : ℕ → List ℕ → List ℕ × List ℕ
  | 0, used => ([], used)
  | w + 1, used =>
    if total ≤ used.length then ([], used)
    else
      (pick used :: (fillRow pick total w (pick used :: used)).1,
       (fillRow pick total w (pick used :: used)).2)

/-- Outer `for (row...)` loop: every one of the `h` rows is pushed (possibly
empty after the pool is exhausted). -/
def fillRows (pick : List ℕ → ℕ) (total w : ℕ) : ℕ → List ℕ → List (List ℕ) × List ℕ
  | 0, used => ([], used)
  | h + 1, used =>
    ((fillRow pick total w used).1 ::
        (fillRows pick total w h (fillRow pick total w used).2).1,
     (fillRows pick total w h (fillRow pick total w used).2).2)

/-- `Layout._makeRandomPattern` for a pool of `N` art objects and ratio
`a / b`: the grid of selected pool indices (cell `(row, col)` holds index
`i`, standing for `new Art(options.artList[i])`). -/
def makeRandomPattern (pick : List ℕ → ℕ) (N a b : ℕ) : List (List ℕ) :=
  ((fillRows pick N (gridDims N a b).1 (gridDims N a b).2 []).1)

/-- `Layout.createFromOptions`, random path (src/src/Layout.ts lines
163-182): builds the pattern, then sets `numRows = array.length` and
`numCols = array[0].length`.  Returns `(array, numRows, numCols)`. -/
def createFromArtList (pick : List ℕ → ℕ) (N a b : ℕ) :
    List (List ℕ) × ℕ × ℕ :=
  (makeRandomPattern pick N a b, (makeRandomPattern pick N a b).length,
    (makeRandomPattern pick N a b).headI.length)

/-- Concrete instance of the resampling loop used for witnesses: the least
unused index (`Math.random` landing on it eventually). -/
def greedyPick (total : ℕ) (used : List ℕ) : ℕ :=
  (((List.range total).filter fun i => ! used.contains i).headI)

/-! ### Helper lemmas for the grid geometry -/

theorem headI_mem {α : Type} [Inhabited α] {l : List α} (h : l ≠ []) :
    l.headI ∈ l := by
  cases l with
  | nil => exact absurd rfl h
  | cons a t => exact List.mem_cons_self a t

theorem ceilSqrt_le_sq (k : ℕ) : k ≤ ceilSqrt k * ceilSqrt k := by
  have hk : k ≤ k * k := by nlinarith
  have hmem : k ∈ (List.range (k + 1)).filter fun h => decide (k ≤ h * h) := by
    rw [List.mem_filter]
    exact ⟨List.mem_range.mpr (Nat.lt_succ_self k), decide_eq_true hk⟩
  have hne : ((List.range (k + 1)).filter fun h => decide (k ≤ h * h)) ≠ [] :=
    List.ne_nil_of_mem hmem
  have hhead := headI_mem hne
  rw [List.mem_filter] at hhead
  exact of_decide_eq_true hhead.2

theorem ceilSqrt_pos (k : ℕ) (hk : 1 ≤ k) : 1 ≤ ceilSqrt k := by
  by_contra hcon
  have h0 : ceilSqrt k = 0 := by omega
  have := ceilSqrt_le_sq k
  rw [h0] at this
  omega

theorem le_ceilDiv_mul (m k : ℕ) (hk : 0 < k) : m ≤ ceilDiv m k * k := by
  have hdm := Nat.div_add_mod (m + k - 1) k
  have hmod : (m + k - 1) % k < k := Nat.mod_lt _ hk
  unfold ceilDiv
  generalize hq : (m + k - 1) / k = q at hdm ⊢
  generalize hr : (m + k - 1) % k = r at hdm hmod
  have hqk : k * q = q * k := Nat.mul_comm k q
  omega

theorem ceilDiv_pos (m k : ℕ) (hm : 1 ≤ m) (hk : 1 ≤ k) : 1 ≤ ceilDiv m k := by
  unfold ceilDiv
  rw [Nat.le_div_iff_mul_le (by omega)]
  omega

theorem initialDims_capacity (N a b : ℕ) (ha : 1 ≤ a) (hb : 1 ≤ b) :
    N ≤ (initialDims N a b).1 * (initialDims N a b).2 := by
  unfold initialDims
  dsimp only
  set h := ceilSqrt (ceilDiv (N * b) a) with hh
  set w := ceilDiv (h * a) b with hw
  have h1 : ceilDiv (N * b) a ≤ h * h := ceilSqrt_le_sq _
  have h2 : N * b ≤ ceilDiv (N * b) a * a := le_ceilDiv_mul _ a (by omega)
  have h3 : N * b ≤ h * h * a :=
    le_trans h2 (Nat.mul_le_mul_right a h1)
  have h4 : h * a ≤ w * b := le_ceilDiv_mul (h * a) b (by omega)
  have h5 : N * b ≤ w * h * b := by nlinarith
  exact Nat.le_of_mul_le_mul_right h5 (by omega)

theorem initialDims_height_pos (N a b : ℕ) (hN : 1 ≤ N) (ha : 1 ≤ a) (hb : 1 ≤ b) :
    1 ≤ (initialDims N a b).2 := by
  unfold initialDims
  exact ceilSqrt_pos _ (ceilDiv_pos _ _ (by nlinarith) ha)

theorem shrinkDims_capacity (N : ℕ) (wh : ℕ × ℕ) (h : N ≤ wh.1 * wh.2) :
    N ≤ (shrinkDims N wh).1 * (shrinkDims N wh).2 := by
  unfold shrinkDims
  dsimp only
  split <;> split <;> split <;> assumption

theorem height_shrink_pos (N w2 h : ℕ) (hN : 1 ≤ N) (hh : 1 ≤ h) :
    1 ≤ if N ≤ w2 * (h - 1) then h - 1 else h := by
  split
  · rename_i hguard
    by_contra hcon
    have hz : h - 1 = 0 := by omega
    rw [hz, Nat.mul_zero] at hguard
    omega
  · exact hh

theorem shrinkDims_height_pos (N : ℕ) (wh : ℕ × ℕ) (hN : 1 ≤ N) (hh : 1 ≤ wh.2) :
    1 ≤ (shrinkDims N wh).2 := by
  unfold shrinkDims
  dsimp only
  exact height_shrink_pos N _ wh.2 hN hh

theorem gridDims_capacity (N a b : ℕ) (ha : 1 ≤ a) (hb : 1 ≤ b) :
    N ≤ (gridDims N a b).1 * (gridDims N a b).2 :=
  shrinkDims_capacity N _ (initialDims_capacity N a b ha hb)

theorem gridDims_height_pos (N a b : ℕ) (hN : 1 ≤ N) (ha : 1 ≤ a) (hb : 1 ≤ b) :
    1 ≤ (gridDims N a b).2 :=
  shrinkDims_height_pos N _ hN (initialDims_height_pos N a b hN ha hb)

/-! ### Helper lemmas for the fill loops -/

theorem fillRow_snd (pick : List ℕ → ℕ) (total : ℕ) :
    ∀ (w : ℕ) (used : List ℕ),
      (fillRow pick total w used).2 = (fillRow pick total w used).1.reverse ++ used := by
  intro w
  induction w with
  | zero => intro used; simp [fillRow]
  | succ w ih =>
      intro used
      rw [fillRow]
      split
      · simp
      · simp [ih (pick used :: used)]

theorem fillRow_fst_length (pick : List ℕ → ℕ) (total : ℕ) :
    ∀ (w : ℕ) (used : List ℕ), used.length ≤ total →
      (fillRow pick total w used).1.length = min w (total - used.length) := by
  intro w
  induction w with
  | zero => intro used _; simp [fillRow]
  | succ w ih =>
      intro used hu
      rw [fillRow]
      split
      · rename_i hstop
        simp
        omega
      · rename_i hgo
        have hlen : (pick used :: used).length ≤ total := by simp; omega
        simp [ih (pick used :: used) hlen]
        omega

theorem fillRow_snd_length (pick : List ℕ → ℕ) (total : ℕ)
    (w : ℕ) (used : List ℕ) (hu : used.length ≤ total) :
    (fillRow pick total w used).2.length = min (used.length + w) total := by
  rw [fillRow_snd]
  simp [fillRow_fst_length pick total w used hu]
  omega

theorem fillRow_snd_invariant (pick : List ℕ → ℕ) (total : ℕ)
    (hpick : ValidPick total pick) :
    ∀ (w : ℕ) (used : List ℕ), used.Nodup → (∀ x ∈ used, x < total) →
      (fillRow pick total w used).2.Nodup ∧
        ∀ x ∈ (fillRow pick total w used).2, x < total := by
  intro w
  induction w with
  | zero => intro used hnd hlt; exact ⟨hnd, hlt⟩
  | succ w ih =>
      intro used hnd hlt
      rw [fillRow]
      split
      · exact ⟨hnd, hlt⟩
      · rename_i hgo
        have hu : used.length < total := by omega
        obtain ⟨hp1, hp2⟩ := hpick used hu
        refine ih (pick used :: used) (List.nodup_cons.mpr ⟨hp2, hnd⟩) ?_
        intro x hx
        rcases List.mem_cons.mp hx with hx | hx
        · exact hx ▸ hp1
        · exact hlt x hx

theorem fillRows_fst_length (pick : List ℕ → ℕ) (total w : ℕ) :
    ∀ (h : ℕ) (used : List ℕ), (fillRows pick total w h used).1.length = h := by
  intro h
  induction h with
  | zero => intro used; simp [fillRows]
  | succ h ih => intro used; simp [fillRows, ih]

theorem fillRows_snd (pick : List ℕ → ℕ) (total w : ℕ) :
    ∀ (h : ℕ) (used : List ℕ),
      (fillRows pick total w h used).2 =
        (fillRows pick total w h used).1.flatten.reverse ++ used := by
  intro h
  induction h with
  | zero => intro used; simp [fillRows]
  | succ h ih =>
      intro used
      rw [fillRows]
      dsimp only
      rw [ih, fillRow_snd]
      simp

theorem fillRows_snd_length (pick : List ℕ → ℕ) (total w : ℕ) :
    ∀ (h : ℕ) (used : List ℕ), used.length ≤ total →
      (fillRows pick total w h used).2.length = min (used.length + w * h) total := by
  intro h
  induction h with
  | zero => intro used hu; simp [fillRows]; omega
  | succ h ih =>
      intro used hu
      rw [fillRows]
      dsimp only
      have h1 := fillRow_snd_length pick total w used hu
      have h2 : (fillRow pick total w used).2.length ≤ total := by omega
      rw [ih _ h2, h1]
      have hmul : w * (h + 1) = w * h + w := by ring
      rw [hmul]
      omega

theorem fillRows_snd_invariant (pick : List ℕ → ℕ) (total w : ℕ)
    (hpick : ValidPick total pick) :
    ∀ (h : ℕ) (used : List ℕ), used.Nodup → (∀ x ∈ used, x < total) →
      (fillRows pick total w h used).2.Nodup ∧
        ∀ x ∈ (fillRows pick total w h used).2, x < total := by
  intro h
  induction h with
  | zero => intro used hnd hlt; exact ⟨hnd, hlt⟩
  | succ h ih =>
      intro used hnd hlt
      rw [fillRows]
      dsimp only
      obtain ⟨hnd1, hlt1⟩ := fillRow_snd_invariant pick total hpick w used hnd hlt
      exact ih _ hnd1 hlt1

theorem fillRows_row_length_le (pick : List ℕ → ℕ) (total w : ℕ) :
    ∀ (h : ℕ) (used : List ℕ), used.length ≤ total →
      ∀ r ∈ (fillRows pick total w h used).1,
        r.length ≤ min w (total - used.length) := by
  intro h
  induction h with
  | zero => intro used hu r hr; simp [fillRows] at hr
  | succ h ih =>
      intro used hu r hr
      rw [fillRows] at hr
      dsimp only at hr
      rcases List.mem_cons.mp hr with hr | hr
      · rw [hr, fillRow_fst_length pick total w used hu]
      · have h1 := fillRow_snd_length pick total w used hu
        have h2 : (fillRow pick total w used).2.length ≤ total := by omega
        have h3 := ih ((fillRow pick total w used).2) h2 r hr
        have h4 : used.length ≤ (fillRow pick total w used).2.length := by omega
        omega

theorem fillRows_headI (pick : List ℕ → ℕ) (total w h : ℕ) (used : List ℕ) :
    (fillRows pick total w (h + 1) used).1.headI = (fillRow pick total w used).1 := by
  rw [fillRows]
  rfl

/-- `Math.random`-free concrete resampling oracle is valid: whenever fewer
than `total` indices are used, the least unused index qualifies. -/
theorem greedyPick_valid (total : ℕ) : ValidPick total (greedyPick total) := by
  intro used hu
  unfold greedyPick
  have hne : ((List.range total).filter fun i => ! used.contains i) ≠ [] := by
    intro hnil
    have hsub : ∀ i ∈ List.range total, i ∈ used := by
      intro i hi
      by_contra hmem
      have hin : i ∈ (List.range total).filter fun i => ! used.contains i := by
        rw [List.mem_filter]
        refine ⟨hi, ?_⟩
        simpa using hmem
      rw [hnil] at hin
      exact absurd hin (List.not_mem_nil i)
    have hsubF : Finset.range total ⊆ used.toFinset := by
      intro i hi
      rw [List.mem_toFinset]
      exact hsub i (List.mem_range.mpr (Finset.mem_range.mp hi))
    have hcard : total ≤ used.toFinset.card := by
      have := Finset.card_le_card hsubF
      simpa using this
    have hcard2 : used.toFinset.card ≤ used.length := used.toFinset_card_le
    omega
  have hmem := headI_mem hne
  rw [List.mem_filter] at hmem
  refine ⟨List.mem_range.mp hmem.1, ?_⟩
  have h2 := hmem.2
  simpa using h2

/-! ### Claims C1 and C3 -/

/-- C1 amended: for every non-empty pool of `N` art objects placed through
`createFromOptions` with `artList` and ratio `a / b`, the grid contains
every pool index exactly once (no index is selected twice) and the capacity
satisfies `numRows * numCols ≥ N`.  (The further claimed bound
`numRows * numCols - N < numCols` is false in general, see the
counterexample.) -/
theorem randomPattern_exactly_once (pick : List ℕ → ℕ) (N a b : ℕ)
    (hN : 1 ≤ N) (ha : 1 ≤ a) (hb : 1 ≤ b) (hpick : ValidPick N pick) :
    (∀ i, i < N → (makeRandomPattern pick N a b).flatten.count i = 1) ∧
      (∀ i ∈ (makeRandomPattern pick N a b).flatten, i < N) ∧
      N ≤ (createFromArtList pick N a b).2.1 * (createFromArtList pick N a b).2.2 := by
  set w := (gridDims N a b).1 with hw
  set h := (gridDims N a b).2 with hh
  have hcap : N ≤ w * h := gridDims_capacity N a b ha hb
  have hpos : 1 ≤ h := gridDims_height_pos N a b hN ha hb
  set F := (makeRandomPattern pick N a b).flatten with hF
  have hsnd : (fillRows pick N w h []).2 = F.reverse := by
    rw [fillRows_snd]
    simp [hF, makeRandomPattern, hw, hh]
  have hlen : F.length = N := by
    have := fillRows_snd_length pick N w h [] (by simp)
    rw [hsnd] at this
    simp at this
    have hmin : min (w * h) N = N := by omega
    rw [hmin] at this
    exact this
  have hinv := fillRows_snd_invariant pick N w hpick h [] (List.nodup_nil) (by simp)
  rw [hsnd] at hinv
  have hnd : F.Nodup := by
    have := hinv.1
    rwa [List.nodup_reverse] at this
  have hltF : ∀ i ∈ F, i < N := by
    intro i hi
    exact hinv.2 i (List.mem_reverse.mpr hi)
  have hmemF : ∀ i, i < N → i ∈ F := by
    intro i hi
    have hsubF : F.toFinset ⊆ Finset.range N := by
      intro x hx
      rw [List.mem_toFinset] at hx
      exact Finset.mem_range.mpr (hltF x hx)
    have hcardF : F.toFinset.card = N := by
      rw [List.toFinset_card_of_nodup hnd, hlen]
    have hEq : F.toFinset = Finset.range N := by
      apply Finset.eq_of_subset_of_card_le hsubF
      simp [hcardF]
    have : i ∈ F.toFinset := by
      rw [hEq]
      exact Finset.mem_range.mpr hi
    rwa [List.mem_toFinset] at this
  refine ⟨?_, hltF, ?_⟩
  · intro i hi
    have h1 : F.count i ≤ 1 := List.nodup_iff_count_le_one.mp hnd i
    have h2 : 0 < F.count i := List.count_pos_iff.mpr (hmemF i hi)
    omega
  · show N ≤ (makeRandomPattern pick N a b).length * (makeRandomPattern pick N a b).headI.length
    obtain ⟨h', hh'⟩ : ∃ h', h = h' + 1 := ⟨h - 1, by omega⟩
    have hrowsLen : (makeRandomPattern pick N a b).length = h := by
      simp [makeRandomPattern, ← hw, ← hh, fillRows_fst_length]
    have hheadLen : (makeRandomPattern pick N a b).headI.length = min w N := by
      simp only [makeRandomPattern, ← hw, ← hh, hh']
      rw [fillRows_headI]
      rw [fillRow_fst_length pick N w [] (by simp)]
      simp
    rw [hrowsLen, hheadLen]
    rcases Nat.le_total w N with hwN | hwN
    · rw [min_eq_left hwN, Nat.mul_comm h w]
      exact hcap
    · rw [min_eq_right hwN]
      calc N = 1 * N := (Nat.one_mul N).symm
        _ ≤ h * N := Nat.mul_le_mul_right N hpos

/-- C1 counterexample: with pool size `N = 1` and ratio `1 / 5` the grid is
`2 × 1` with an entirely empty second row, so the claimed bound
`numRows * numCols - N < numCols` fails (here `2 * 1 - 1 = 1`, not `< 1`);
the selection trace `pick = (fun used => 0)` is a valid outcome of the
resampling loop. -/
theorem randomPattern_counterexample :
    ValidPick 1 (fun _ => 0) ∧
      makeRandomPattern (fun _ => 0) 1 1 5 = [[0], []] ∧
      ¬ ((createFromArtList (fun _ => 0) 1 1 5).2.1 *
            (createFromArtList (fun _ => 0) 1 1 5).2.2 - 1 <
          (createFromArtList (fun _ => 0) 1 1 5).2.2) := by
  refine ⟨?_, by decide, by decide⟩
  intro used hu
  have hnil : used = [] := List.eq_nil_of_length_eq_zero (by omega)
  subst hnil
  exact ⟨Nat.one_pos, by simp⟩

/-- Closed witness for `randomPattern_exactly_once` at pool size 4 and the
default ratio `9 / 16`. -/
theorem randomPattern_exactly_once_witness :
    (1 ≤ (4:ℕ) ∧ ValidPick 4 (greedyPick 4)) ∧
      ((∀ i, i < 4 → (makeRandomPattern (greedyPick 4) 4 9 16).flatten.count i = 1) ∧
        (∀ i ∈ (makeRandomPattern (greedyPick 4) 4 9 16).flatten, i < 4) ∧
        4 ≤ (createFromArtList (greedyPick 4) 4 9 16).2.1 *
              (createFromArtList (greedyPick 4) 4 9 16).2.2) :=
  ⟨⟨by decide, greedyPick_valid 4⟩,
    randomPattern_exactly_once (greedyPick 4) 4 9 16 (by decide) (by decide)
      (by decide) (greedyPick_valid 4)⟩

/-- C3 amended: once a layout is built through the random path,
`numRows = array.length` and `numCols = array[0].length` hold by
construction, and every row has length at most `numCols`; the array is
however *not* always rectangular — trailing rows can be strictly shorter
(see the counterexample). -/
theorem layout_rows_bounded (pick : List ℕ → ℕ) (N a b : ℕ)
    (hN : 1 ≤ N) (ha : 1 ≤ a) (hb : 1 ≤ b) (hpick : ValidPick N pick) :
    (createFromArtList pick N a b).2.1 = (createFromArtList pick N a b).1.length ∧
      (createFromArtList pick N a b).2.2 = (createFromArtList pick N a b).1.headI.length ∧
      ∀ r ∈ (createFromArtList pick N a b).1,
        r.length ≤ (createFromArtList pick N a b).2.2 := by
  refine ⟨rfl, rfl, ?_⟩
  set w := (gridDims N a b).1 with hw
  set h := (gridDims N a b).2 with hh
  have hpos : 1 ≤ h := gridDims_height_pos N a b hN ha hb
  obtain ⟨h', hh'⟩ : ∃ h', h = h' + 1 := ⟨h - 1, by omega⟩
  intro r hr
  have hbound := fillRows_row_length_le pick N w h [] (by simp) r
  have hheadLen : (createFromArtList pick N a b).2.2 = min w N := by
    show (makeRandomPattern pick N a b).headI.length = min w N
    simp only [makeRandomPattern, ← hw, ← hh, hh']
    rw [fillRows_headI]
    rw [fillRow_fst_length pick N w [] (by simp)]
    simp
  rw [hheadLen]
  have hr' : r ∈ (fillRows pick N w h []).1 := by
    simpa [createFromArtList, makeRandomPattern, ← hw, ← hh] using hr
  have := hbound hr'
  simpa using this

/-- C3 counterexample: pool size 5 at the default ratio `9 / 16` yields the
`3 × 2` grid `[[0,1],[2,3],[4]]` whose final row is shorter than
`numCols = 2` — the built array is jagged, not rectangular. -/
theorem layout_rectangular_counterexample :
    ValidPick 5 (greedyPick 5) ∧
      (createFromArtList (greedyPick 5) 5 9 16).1 = [[0, 1], [2, 3], [4]] ∧
      ¬ (∀ r ∈ (createFromArtList (greedyPick 5) 5 9 16).1,
          r.length = (createFromArtList (greedyPick 5) 5 9 16).2.2) :=
  ⟨greedyPick_valid 5, by decide, by decide⟩

/-- Closed witness for `layout_rows_bounded` at pool size 5 and the default
ratio. -/
theorem layout_rows_bounded_witness :
    (1 ≤ (5:ℕ) ∧ ValidPick 5 (greedyPick 5)) ∧
      ((createFromArtList (greedyPick 5) 5 9 16).2.1 =
          (createFromArtList (greedyPick 5) 5 9 16).1.length ∧
        (createFromArtList (greedyPick 5) 5 9 16).2.2 =
          (createFromArtList (greedyPick 5) 5 9 16).1.headI.length ∧
        ∀ r ∈ (createFromArtList (greedyPick 5) 5 9 16).1,
          r.length ≤ (createFromArtList (greedyPick 5) 5 9 16).2.2) :=
  ⟨⟨by decide, greedyPick_valid 5⟩,
    layout_rows_bounded (greedyPick 5) 5 9 16 (by decide) (by decide) (by decide)
      (greedyPick_valid 5)⟩

/-! ## LayoutImage.generate (src/src/LayoutImage.ts lines 75-178)

The stitching loop of the compositor:

```
let y=0;
for (const row of this.layout.array) {
    let x = 0;
    for (const artObject of row) {
        try {
            const art = new Art(artObject);
            const artBuffer = await art.loadOrGenerateThumbnail(thumbnailSize);
            const artBlock: ArtBlock = { input: artBuffer, top:y*imageHeight, left:x*imageWidth };
            blocks.push(artBlock);
            ...
        }
        catch (e) { ... console.error(e); }
        totalDone++;
        x++;
    }
    y++;
}
this.buffer = await sharp({ create: { width:imageWidth * this.layout.numCols,
                                      height:imageHeight * this.layout.numRows, ... }
          }).composite(blocks)...
```

The per-cell pipeline (`new Art` + ensure/load the thumbnail of the layout's
nominal width) either yields the cell's bytes or throws; both the `x++` of
the column counter and the row counter `y++` advance regardless, so a failed
cell never shifts the placement of its successors.  It is abstracted as
`load : α → Option β` (`none` = the thrown, caught-and-logged failure);
`cellW`/`cellH` are the probed `imageWidth`/`imageHeight` of the sample
thumbnail. -/

universe u v

/-- One entry of the `blocks` array handed to `sharp(...).composite`. -/
structure ArtBlock (β : Type v) where
  input : β
  top : ℕ
  left : ℕ
deriving DecidableEq, Repr

/-- Inner `for (const artObject of row)` loop at row index `y`, starting at
column `x`: a failing cell is skipped, every other cell is appended with
`top = y*cellH`, `left = x*cellW`. -/
def stitchRow {α : Type u} {β : Type v} (load : α → Option β)
    (cellW cellH y : ℕ) : List α → ℕ → List (ArtBlock β)
  | [], _ => []
  | c :: rest, x =>
    match load c with
    | some buf => ⟨buf, y * cellH, x * cellW⟩ :: stitchRow load cellW cellH y rest (x + 1)
    | none => stitchRow load cellW cellH y rest (x + 1)

/-- Outer `for (const row of this.layout.array)` loop, starting at row
index `y`. -/
def stitchBlocks {α : Type u} {β : Type v} (load : α → Option β)
    (cellW cellH : ℕ) : List (List α) → ℕ → List (ArtBlock β)
  | [], _ => []
  | row :: rest, y =>
      stitchRow load cellW cellH y row 0 ++ stitchBlocks load cellW cellH rest (y + 1)

/-- The composite handed to sharp: the blank base canvas dimensions and the
block list. -/
structure CompositeImage (β : Type v) where
  canvasWidth : ℕ
  canvasHeight : ℕ
  blocks : List (ArtBlock β)
deriving DecidableEq, Repr

/-- `LayoutImage.generate`: collect the per-cell blocks (skipping failed
cells) and composite them onto a base canvas of
`imageWidth*numCols × imageHeight*numRows`. -/
def generateLayoutImage {α : Type u} {β : Type v} (load : α → Option β)
    (grid : List (List α)) (numRows numCols cellW cellH : ℕ) : CompositeImage β :=
  { canvasWidth := cellW * numCols
    canvasHeight := cellH * numRows
    blocks := stitchBlocks load cellW cellH grid 0 }

theorem stitchRow_all_some {α : Type u} {β : Type v} (load : α → Option β)
    (cellW cellH y : ℕ) :
    ∀ (row : List α) (x : ℕ), (∀ c ∈ row, (load c).isSome) →
      (stitchRow load cellW cellH y row x).map (fun blk => (blk.top, blk.left)) =
        (List.enumFrom x row).map fun q => (y * cellH, q.1 * cellW) := by
  intro row
  induction row with
  | nil => intro x _; simp [stitchRow]
  | cons c rest ih =>
      intro x hall
      have hc : (load c).isSome := hall c (List.mem_cons_self c rest)
      obtain ⟨buf, hbuf⟩ := Option.isSome_iff_exists.mp hc
      rw [stitchRow, hbuf]
      have hrest : ∀ c ∈ rest, (load c).isSome := fun c hcm =>
        hall c (List.mem_cons_of_mem _ hcm)
      simp [ih (x + 1) hrest, List.enumFrom_cons]

theorem stitchBlocks_all_some {α : Type u} {β : Type v} (load : α → Option β)
    (cellW cellH : ℕ) :
    ∀ (grid : List (List α)) (y : ℕ), (∀ row ∈ grid, ∀ c ∈ row, (load c).isSome) →
      (stitchBlocks load cellW cellH grid y).map (fun blk => (blk.top, blk.left)) =
        (List.enumFrom y grid).flatMap fun p =>
          p.2.enum.map fun q => (p.1 * cellH, q.1 * cellW) := by
  intro grid
  induction grid with
  | nil => intro y _; simp [stitchBlocks]
  | cons row rest ih =>
      intro y hall
      rw [stitchBlocks]
      have hrow : ∀ c ∈ row, (load c).isSome := hall row (List.mem_cons_self row rest)
      have hrest : ∀ r ∈ rest, ∀ c ∈ r, (load c).isSome := fun r hrm =>
        hall r (List.mem_cons_of_mem _ hrm)
      rw [List.map_append, stitchRow_all_some load cellW cellH y row 0 hrow,
        ih (y + 1) hrest, List.enumFrom_cons]
      simp [List.enum]

/-- C2: when every cell's thumbnail loads, the composite base canvas is
`cellW*numCols × cellH*numRows` and the block list carries, in row-major
order, one block per cell placed at `top = rowIndex * cellH`,
`left = colIndex * cellW`. -/
theorem generate_places_row_major {α : Type u} {β : Type v} (load : α → Option β)
    (grid : List (List α)) (numRows numCols cellW cellH : ℕ)
    (hall : ∀ row ∈ grid, ∀ c ∈ row, (load c).isSome) :
    (generateLayoutImage load grid numRows numCols cellW cellH).canvasWidth
        = cellW * numCols ∧
      (generateLayoutImage load grid numRows numCols cellW cellH).canvasHeight
        = cellH * numRows ∧
      (generateLayoutImage load grid numRows numCols cellW cellH).blocks.map
          (fun blk => (blk.top, blk.left)) =
        grid.enum.flatMap fun p => p.2.enum.map fun q => (p.1 * cellH, q.1 * cellW) := by
  refine ⟨rfl, rfl, ?_⟩
  show (stitchBlocks load cellW cellH grid 0).map (fun blk => (blk.top, blk.left)) = _
  rw [stitchBlocks_all_some load cellW cellH grid 0 hall]
  rfl

/-- Closed witness for `generate_places_row_major`: a fully-loading 2×2 grid
with cell size 10×7 yields offsets `(0,0), (0,10), (7,0), (7,10)`. -/
theorem generate_places_row_major_witness :
    (∀ row ∈ [[0, 1], [2, 3]], ∀ c ∈ row, ((fun c : ℕ => some (c + 100)) c).isSome) ∧
      ((generateLayoutImage (fun c : ℕ => some (c + 100)) [[0, 1], [2, 3]] 2 2 10 7).canvasWidth
          = 10 * 2 ∧
        (generateLayoutImage (fun c : ℕ => some (c + 100)) [[0, 1], [2, 3]] 2 2 10 7).canvasHeight
          = 7 * 2 ∧
        (generateLayoutImage (fun c : ℕ => some (c + 100)) [[0, 1], [2, 3]] 2 2 10 7).blocks.map
            (fun blk => (blk.top, blk.left)) =
          ([[0, 1], [2, 3]] : List (List ℕ)).enum.flatMap fun p =>
            p.2.enum.map fun q => (p.1 * 7, q.1 * 10)) :=
  ⟨by decide,
    generate_places_row_major (fun c : ℕ => some (c + 100)) [[0, 1], [2, 3]] 2 2 10 7
      (by decide)⟩

theorem stitchRow_filterMap {α : Type u} {β : Type v} (load : α → Option β)
    (cellW cellH y : ℕ) :
    ∀ (row : List α) (x : ℕ),
      stitchRow load cellW cellH y row x =
        (List.enumFrom x row).filterMap fun q =>
          (load q.2).map fun buf => ⟨buf, y * cellH, q.1 * cellW⟩ := by
  intro row
  induction row with
  | nil => intro x; simp [stitchRow]
  | cons c rest ih =>
      intro x
      rw [stitchRow, List.enumFrom_cons, List.filterMap_cons]
      cases hc : load c with
      | none => simp [hc, ih (x + 1)]
      | some buf => simp [hc, ih (x + 1)]

theorem stitchBlocks_filterMap {α : Type u} {β : Type v} (load : α → Option β)
    (cellW cellH : ℕ) :
    ∀ (grid : List (List α)) (y : ℕ),
      stitchBlocks load cellW cellH grid y =
        (List.enumFrom y grid).flatMap fun p =>
          p.2.enum.filterMap fun q =>
            (load q.2).map fun buf => ⟨buf, p.1 * cellH, q.1 * cellW⟩ := by
  intro grid
  induction grid with
  | nil => intro y; simp [stitchBlocks]
  | cons row rest ih =>
      intro y
      rw [stitchBlocks, List.enumFrom_cons, List.flatMap_cons,
        stitchRow_filterMap load cellW cellH y row 0, ih (y + 1)]
      rfl

/-- C8: grid composition is total and best-effort.  Whatever cells fail to
load (`load = none`), the blocks list is exactly the row-major enumeration
of the cells whose load succeeded, each still placed at its own
`(rowIndex * cellH, colIndex * cellW)` offset — a failing cell is omitted
without shifting or aborting the others — and the composite canvas of full
size `cellW*numCols × cellH*numRows` is still produced. -/
theorem generate_skips_failed_cells {α : Type u} {β : Type v} (load : α → Option β)
    (grid : List (List α)) (numRows numCols cellW cellH : ℕ) :
    (generateLayoutImage load grid numRows numCols cellW cellH).blocks =
        (grid.enum.flatMap fun p =>
          p.2.enum.filterMap fun q =>
            (load q.2).map fun buf => ⟨buf, p.1 * cellH, q.1 * cellW⟩) ∧
      (generateLayoutImage load grid numRows numCols cellW cellH).canvasWidth
          = cellW * numCols ∧
      (generateLayoutImage load grid numRows numCols cellW cellH).canvasHeight
          = cellH * numRows := by
  refine ⟨?_, rfl, rfl⟩
  show stitchBlocks load cellW cellH grid 0 = _
  rw [stitchBlocks_filterMap load cellW cellH grid 0]
  rfl

/-! ## ImageResource (src/src/ImageResource.ts) and Art (src/src/Art.ts)

Byte buffers are an abstract type `Buf`; the external collaborators
(node-fetch / fs reads, image-size probing, sharp resizing, node's
`path.resolve`) are an explicit environment of functions. -/

variable {Buf : Type}

deriving instance DecidableEq for Except

/-- Result of image-size's `imageSize(buffer)`. -/
structure Dims where
  width : ℕ
  height : ℕ
  orientation : Option ℕ := none
deriving DecidableEq, Repr

/-- External collaborators consumed by the resource operations. -/
structure ImgEnv (Buf : Type) where
  /-- `Util.getResourceBuffer`: fetch/read bytes for a location; `none`
  models a rejected fetch (unreachable location or 5s timeout abort). -/
  fetch : String → Option Buf
  /-- image-size's `imageSize`; `none` models an unreadable header. -/
  probe : Buf → Option Dims
  /-- `sharp(buf).resize({width}).withMetadata().jpeg().toBuffer()`. -/
  resize : Buf → ℕ → Buf
  /-- node's `path.resolve` against the current working directory. -/
  resolveAbs : String → String

/-- Modelled from the spec: `resolvePath` is imported from `Util` by the
`ImageResource` constructor but is not present in the sources (only its
sibling `validatePath` is).  Per the spec the constructor simply records the
canonical location — "`id` is set at construction and is immutable" — so
location strings are kept unchanged. -/
def resolvePath (s : String) : String := s

/-- `ImageResource` instance state: `id` (canonical location), the memoized
buffer, and lazily probed dimensions.  The `partOf` back-pointer to the
owning `Art` is kept implicit (operations needing `partOf.sourceName`
receive the name explicitly). -/
structure ImageResourceM (Buf : Type) where
  id : String
  buffer : Option Buf := none
  dimensions : Option Dims := none
deriving DecidableEq, Repr

/-- The `ImageResource` constructor (src/src/ImageResource.ts lines
228-243): `if (!options.id || !options.art) throw ...` — a missing (or
empty, hence falsy) id is rejected; `options.art` is always the owning
`this` and hence truthy.  URL-object ids are passed as their href string. -/
def ImageResourceM.make (id : Option String) (buffer : Option Buf)
    (dimensions : Option Dims) : Except String (ImageResourceM Buf) :=
  match id with
  | none => .error "Image resource is missing a required property."
  | some s =>
      if s = "" then .error "Image resource is missing a required property."
      else .ok { id := resolvePath s, buffer := buffer, dimensions := dimensions }

/-- `ImageResource.loadResource`: memoized buffer load. -/
def ImageResourceM.loadResource (env : ImgEnv Buf) (r : ImageResourceM Buf) :
    Except String (Buf × ImageResourceM Buf) :=
  match r.buffer with
  | some b => .ok (b, r)
  | none =>
      match env.fetch r.id with
      | some b => .ok (b, { r with buffer := some b })
      | none => .error ("Failed to fetch resource " ++ r.id ++ ".")

/-- `ImageResource.getDimensions`: load, probe the header, memoize. -/
def ImageResourceM.getDimensions (env : ImgEnv Buf) (r : ImageResourceM Buf) :
    Except String (Dims × ImageResourceM Buf) :=
  match r.loadResource env with
  | .error e => .error e
  | .ok (b, r1) =>
      match env.probe b with
      | none => .error "Failed to read image dimensions."
      | some d => .ok (d, { r1 with dimensions := some d })

/-! String manipulation helpers, implemented on the character lists
underlying `String` (structurally recursive, hence kernel-computable). -/

/-- JS `split` with a single-character separator, on character lists. -/
def splitOnCharAux (c : Char) : List Char → List Char → List (List Char)
  | [], acc => [acc.reverse]
  | x :: xs, acc =>
      if x = c then acc.reverse :: splitOnCharAux c xs []
      else splitOnCharAux c xs (x :: acc)

def splitOnChar (c : Char) (s : List Char) : List (List Char) :=
  splitOnCharAux c s []

def strStartsWith (s pre : String) : Bool := pre.data.isPrefixOf s.data

def strEndsWith (s suf : String) : Bool :=
  suf.data.reverse.isPrefixOf s.data.reverse

/-- `String.dropRight`: the string without its last `n` characters. -/
def strDropRight (s : String) (n : ℕ) : String :=
  String.mk (s.data.take (s.data.length - n))

/-- Re-join dot-separated parts. -/
def joinDots : List (List Char) → List Char
  | [] => []
  | [x] => x
  | x :: xs => x ++ '.' :: joinDots xs

/-- `Util.cleanTrailingSlash`: strip trailing slashes when preceded by a
non-slash character (the regex `([^/])\/+$` leaves all-slash strings
alone). -/
def cleanTrailingSlash (path : String) : String :=
  let t := (path.data.reverse.dropWhile fun c => c = '/').reverse
  if t.isEmpty then path else String.mk t

/-- `Util.saveFile` reduced to the path it returns (the `writeFileSync` side
effect carries no information used by the claims). -/
def saveFilePath (name : String) (outputDir : Option String) : Except String String :=
  match outputDir with
  | none => .error "Output directory not specified."
  | some d => .ok (cleanTrailingSlash d ++ "/" ++ name)

/-- Option records (`GenerateThumbnailOptions` / `GenerateIiifOptions`)
restricted to the fields the claims exercise. -/
structure GenOpts where
  saveFile : Bool
  outputDir : Option String := none
  exclude : List String := []
deriving DecidableEq, Repr

/-- `ImageResource.generateThumbnail` (src/src/ImageResource.ts lines
261-295): load the original, resize to the requested width, and wrap the
result in a new `ImageResource` whose id is either the saved path or the
synthetic in-memory marker `<sourceName>-<w>px.jpeg-buffer`. -/
def ImageResourceM.generateThumbnail (env : ImgEnv Buf) (r : ImageResourceM Buf)
    (sourceName : String) (w : ℕ) (opts : GenOpts) :
    Except String (ImageResourceM Buf) :=
  if w = 0 then .error "Thumbnail size is required."
  else
    match r.loadResource env with
    | .error e => .error e
    | .ok (orig, _) =>
        let thumbBuf := env.resize orig w
        let imageName := sourceName ++ "-" ++ toString w ++ "px.jpeg"
        match (if opts.saveFile then saveFilePath imageName opts.outputDir
               else .ok (imageName ++ "-buffer")) with
        | .error e => .error e
        | .ok thumbnailId => ImageResourceM.make (some thumbnailId) (some thumbBuf) none

/-- `Util.validatePath`: URL-like strings (the `urlRegex`/`httpRegex` tests,
i.e. an `http:/`- or `https:/`-prefix) and absolute paths are returned
unchanged; relative paths are resolved against the cwd. -/
def validatePath (env : ImgEnv Buf) (s : String) : String :=
  if strStartsWith s "http:/" || strStartsWith s "https:/" then s
  else if strStartsWith s "/" then s
  else env.resolveAbs s

/-- `ImageResource.getMimeType`: extension after the last dot, with the
`jpg → jpeg` and `tif → tiff` aliases. -/
def getMimeType (id : String) : Except String String :=
  let parts := splitOnChar '.' id.data
  if parts.length ≤ 1 then .error "ID is not a valid path to an image resource."
  else
    let ext0 := String.mk (parts.getLastD [])
    let ext1 := if ext0 = "jpg" then "jpeg" else ext0
    let ext := if ext1 = "tif" then "tiff" else ext1
    .ok ("image/" ++ ext)

/-- IIIF Image content resource (`type:"Image"` is constant). -/
structure IiifContentRes where
  id : String
  format : String
  width : ℕ
  height : ℕ
deriving DecidableEq, Repr

/-- `ImageResource.toIiifContentResource` (src/src/ImageResource.ts lines
440-470): ensure dimensions, validate the id (saving a `-buffer`-marked
in-memory resource to disk if an output directory was supplied), and emit
the content-resource record. -/
def ImageResourceM.toIiifContentResource (env : ImgEnv Buf)
    (r : ImageResourceM Buf) (opts : GenOpts) :
    Except String (IiifContentRes × ImageResourceM Buf) :=
  match (match r.dimensions with
         | some d => Except.ok (d, r)
         | none => r.getDimensions env) with
  | .error e => .error e
  | .ok (d, r1) =>
      match (if validatePath env r1.id ≠ "" then Except.ok (validatePath env r1.id, r1)
             else if strEndsWith r1.id "-buffer" && r1.buffer.isSome then
               if !opts.saveFile || opts.outputDir.isNone then
                 .error ("Resource " ++ r1.id ++
                   " is only stored in memory. Please provide an output directory to save the buffer to disk.")
               else
                 match saveFilePath (strDropRight r1.id ("-buffer".data.length)) opts.outputDir with
                 | .error e => .error e
                 | .ok newId => .ok (newId, { r1 with id := newId })
             else
               .error ("Resource " ++ r1.id ++
                 " has an invalid ID and is not saved in memory.")) with
      | .error e => .error e
      | .ok (rid, r2) =>
          match getMimeType r2.id with
          | .error e => .error e
          | .ok fmt =>
              .ok ({ id := rid, format := fmt, width := d.width, height := d.height }, r2)

/-! ### Art -/

/-- The runtime shapes an `ArtObject.source` can take: a location string, a
`URL` object (href plus pathname), an in-memory `Buffer`, or an already
constructed `ImageResource`. -/
inductive SourceVal (Buf : Type) where
  | strLoc (s : String)
  | urlLoc (href pathname : String)
  | bufSrc (b : Buf)
  | resSrc (r : ImageResourceM Buf)
deriving DecidableEq, Repr

/-- The flat `ArtObject` input shape (current variant; the legacy `orig`
variant is not exercised by the claims).  Numeric thumbnail keys are
modelled as `ℕ` directly — on `${number}` keys the constructor's re-keying
`thumbnailSize.match(/\d+/)[0]` is the identity. -/
structure ArtObjectM (Buf : Type) where
  id : Option String := none
  source : Option (SourceVal Buf) := none
  thumbnails : List (ℕ × String) := []
  metadata : List (String × String) := []
  dimensions : Option Dims := none
deriving DecidableEq, Repr

/-- `Art` instance state.  `metadata` is the open key/value record in
insertion order. -/
structure ArtM (Buf : Type) where
  id : Option String := none
  source : Option (ImageResourceM Buf) := none
  sourceName : Option String := none
  thumbnails : List (ℕ × ImageResourceM Buf) := []
  metadata : List (String × String) := []
  dimensions : Option Dims := none
deriving DecidableEq, Repr

/-- `Util.getFileName`: `path.parse(p).name` — last path segment without its
final extension (on the plain `dir/name.ext` shapes exercised here). -/
def getFileName (p : String) : String :=
  let base := (splitOnChar '/' p.data).getLastD []
  let parts := splitOnChar '.' base
  if parts.length ≤ 1 then String.mk base
  else String.mk (joinDots parts.dropLast)

/-- `Art.setArtSource` (src/src/Art.ts lines 449-478), returning the source
resource and the `sourceName` it assigns (`none` = left undefined, as in the
`ImageResource` branch).  In the `Buffer` branch the resource is constructed
with `id: null`. -/
def setArtSource (src : Option (SourceVal Buf)) (metadata : List (String × String)) :
    Except String (ImageResourceM Buf × Option String) :=
  match src with
  | none => .error "No source specified for Art."
  | some (.strLoc s) =>
      match ImageResourceM.make (some s) none none with
      | .error e => .error e
      | .ok r => .ok (r, some (getFileName s))
  | some (.urlLoc href pathname) =>
      match ImageResourceM.make (some href) none none with
      | .error e => .error e
      | .ok r => .ok (r, some pathname)
  | some (.bufSrc b) =>
      match List.lookup "title" metadata with
      | none => .error "Passing a buffer requires an art title."
      | some t =>
          if t = "" then .error "Passing a buffer requires an art title."
          else
            match ImageResourceM.make none (some b) none with
            | .error e => .error e
            | .ok r => .ok (r, some t)
  | some (.resSrc r) => .ok (r, none)

/-- The constructor's thumbnail loop: one `ImageResource` per entry, keyed
by width. -/
def mkThumbResources : List (ℕ × String) →
    Except String (List (ℕ × ImageResourceM Buf))
  | [] => .ok []
  | (w, loc) :: rest =>
      match @ImageResourceM.make Buf (some loc) none none with
      | .error e => .error e
      | .ok r =>
          match mkThumbResources rest with
          | .error e => .error e
          | .ok rs => .ok ((w, r) :: rs)

/-- The `Art` constructor (src/src/Art.ts lines 419-447), current
`ArtObject` branch: thumbnails first, then `setArtSource`, then cached
dimensions (also written onto the source resource), metadata, and the id
(only when truthy). -/
def mkArt (x : ArtObjectM Buf) : Except String (ArtM Buf) :=
  match mkThumbResources x.thumbnails with
  | .error e => .error e
  | .ok thumbs =>
      match setArtSource x.source x.metadata with
      | .error e => .error e
      | .ok (src, name) =>
          Except.ok
            { id := match x.id with
                    | some i => if i = "" then none else some i
                    | none => none
              source := some (match x.dimensions with
                              | some d => { src with dimensions := some d }
                              | none => src)
              sourceName := name
              thumbnails := thumbs
              metadata := x.metadata
              dimensions := x.dimensions }

/-- The flat object produced by `Art.toArtObject`. -/
structure FlatArt where
  id : Option String
  source : String
  thumbnails : List (ℕ × String)
  metadata : List (String × String)
deriving DecidableEq, Repr

/-- `Art.toArtObject` (src/src/Art.ts lines 540-552).  The source contains
no unresolved-buffer check (the old checked `toJson` is commented out):
resources whose id is still the synthetic `...-buffer` marker serialize
as-is.  The only failure (`none`) is the `this.source.id` TypeError on a
missing source. -/
def ArtM.toArtObject (a : ArtM Buf) : Option FlatArt :=
  match a.source with
  | none => none
  | some src =>
      some { id := a.id, source := src.id
             thumbnails := a.thumbnails.map fun p => (p.1, p.2.id)
             metadata := a.metadata }

/-- `Art.thumbnailExists`: key membership. -/
def ArtM.thumbnailExists (a : ArtM Buf) (w : ℕ) : Bool :=
  a.thumbnails.any fun p => p.1 = w

/-- `Art.createThumbnail` (src/src/Art.ts lines 517-527): missing width and
duplicate width are errors; otherwise the source generates the thumbnail
and the new entry is recorded under `w`. -/
def ArtM.createThumbnail (env : ImgEnv Buf) (a : ArtM Buf) (w : ℕ) (opts : GenOpts) :
    Except String (ArtM Buf × ImageResourceM Buf) :=
  if w = 0 then .error "Thumbnail size is required."
  else if a.thumbnailExists w then
    .error ("Thumbnail of size " ++ toString w ++ " already exists for " ++
      a.sourceName.getD "undefined" ++ ".")
  else
    match a.source with
    | none => .error "Must have a full-resolution original image to build thumbnails."
    | some src =>
        match src.generateThumbnail env (a.sourceName.getD "undefined") w opts with
        | .error e => .error e
        | .ok r => .ok ({ a with thumbnails := a.thumbnails ++ [(w, r)] }, r)

/-! ### IIIF projection (Art.toIiifThumbnail / toIiifMetadata / toIiifCanvas,
Layout.arrayToIiif) -/

/-- One `{label:{en:[...]}, value:{en:[...]}}` metadata entry (each side is
a single-language singleton array, so only the string is tracked). -/
structure IiifMetadataItem where
  label : String
  value : String
deriving DecidableEq, Repr

/-- `metadataLabel.charAt(0).toUpperCase() + metadataLabel.slice(1)`. -/
def capitalize (s : String) : String :=
  match s.data with
  | [] => ""
  | c :: rest => String.mk (c.toUpper :: rest)

/-- `Art.toIiifMetadata` (src/src/Art.ts lines 566-577): `none` when
`"metadata"` is excluded (the JS function returns `undefined`), otherwise
one capitalized label/value pair per metadata key in insertion order. -/
def ArtM.toIiifMetadata (a : ArtM Buf) (opts : GenOpts) :
    Option (List IiifMetadataItem) :=
  if opts.exclude.contains "metadata" then none
  else some (a.metadata.map fun kv => { label := capitalize kv.1, value := kv.2 })

/-- Insertion step of the width-descending sort
`Object.keys(this.thumbnails).sort((a,b) => Number(b)-Number(a))`. -/
def insertByWidthDesc (p : ℕ × ImageResourceM Buf) :
    List (ℕ × ImageResourceM Buf) → List (ℕ × ImageResourceM Buf)
  | [] => [p]
  | q :: rest => if q.1 ≤ p.1 then p :: q :: rest else q :: insertByWidthDesc p rest

/-- Thumbnail entries sorted by descending width. -/
def sortByWidthDesc : List (ℕ × ImageResourceM Buf) → List (ℕ × ImageResourceM Buf)
  | [] => []
  | p :: rest => insertByWidthDesc p (sortByWidthDesc rest)

/-- The `for (const thumbnailSize of thumbnails)` loop of
`Art.toIiifThumbnail`: each entry becomes a content resource. -/
def thumbsToContentResources (env : ImgEnv Buf) (opts : GenOpts) :
    List (ℕ × ImageResourceM Buf) → Except String (List IiifContentRes)
  | [] => .ok []
  | p :: rest =>
      match p.2.toIiifContentResource env opts with
      | .error e => .error e
      | .ok (cr, _) =>
          match thumbsToContentResources env opts rest with
          | .error e => .error e
          | .ok crs => .ok (cr :: crs)

/-- `Art.toIiifThumbnail` (src/src/Art.ts lines 554-565): `none`
(`undefined`) when `"thumbnails"` is excluded, otherwise the
width-descending content resources. -/
def ArtM.toIiifThumbnail (env : ImgEnv Buf) (a : ArtM Buf) (opts : GenOpts) :
    Except String (Option (List IiifContentRes)) :=
  if opts.exclude.contains "thumbnails" then .ok none
  else
    match thumbsToContentResources env opts (sortByWidthDesc a.thumbnails) with
    | .error e => .error e
    | .ok crs => .ok (some crs)

/-- An IIIF Canvas as produced by `Art.toIiifCanvas`: the single Painting
annotation's body plus the optional `thumbnail` and `metadata` fields
(`none` = the field holds `undefined` and is omitted from the JSON). -/
structure IiifCanvasM where
  id : String
  height : ℕ
  width : ℕ
  body : IiifContentRes
  thumbnail : Option (List IiifContentRes)
  metadata : Option (List IiifMetadataItem)
deriving DecidableEq, Repr

/-- `Art.toIiifCanvas` (src/src/Art.ts lines 579-617): probe the source
dimensions, build the annotation body, then attach `thumbnail` and
`metadata` (`this.thumbnails` and `this.metadata` are always set by the
constructor, so both fields are always assigned — possibly to
`undefined`). -/
def ArtM.toIiifCanvas (env : ImgEnv Buf) (a : ArtM Buf) (canvasId : String)
    (opts : GenOpts) : Except String IiifCanvasM :=
  if canvasId = "" then .error "Must provide a canvas ID for IIIF output."
  else
    match a.source with
    | none => .error "Cannot read dimensions: Art has no source resource."
    | some src =>
        match src.getDimensions env with
        | .error e => .error e
        | .ok (d, src1) =>
            match src1.toIiifContentResource env opts with
            | .error e => .error e
            | .ok (body, _) =>
                match a.toIiifThumbnail env opts with
                | .error e => .error e
                | .ok thumb =>
                    .ok { id := canvasId, height := d.height, width := d.width
                          body := body, thumbnail := thumb
                          metadata := a.toIiifMetadata opts }

/-- The slice of `Layout` state consumed by `arrayToIiif`. -/
structure LayoutM (Buf : Type) where
  id : String
  name : String
  array : List (List (ArtM Buf))

/-- An IIIF Manifest as produced by `Layout.arrayToIiif('Manifest', ...)`:
id `<layoutId>-contents`, the layout name as label, and one Canvas per cell
in row-major order. -/
structure IiifManifestM where
  id : String
  label : String
  items : List IiifCanvasM
deriving DecidableEq, Repr

/-- Inner loop of `createIiifArt`: one Canvas per art of a row, with canvas
id `` `${art.id}/canvas` `` (an undefined `art.id` stringifies to
`"undefined"`). -/
def rowCanvases (env : ImgEnv Buf) (opts : GenOpts) :
    List (ArtM Buf) → Except String (List IiifCanvasM)
  | [] => .ok []
  | a :: rest =>
      match a.toIiifCanvas env (a.id.getD "undefined" ++ "/canvas") opts with
      | .error e => .error e
      | .ok c =>
          match rowCanvases env opts rest with
          | .error e => .error e
          | .ok cs => .ok (c :: cs)

/-- Outer loop of `createIiifArt` over the rows. -/
def gridCanvases (env : ImgEnv Buf) (opts : GenOpts) :
    List (List (ArtM Buf)) → Except String (List IiifCanvasM)
  | [] => .ok []
  | row :: rest =>
      match rowCanvases env opts row with
      | .error e => .error e
      | .ok cs =>
          match gridCanvases env opts rest with
          | .error e => .error e
          | .ok css => .ok (cs ++ css)

/-- `Layout.arrayToIiif` with `type = 'Manifest'` (src/src/Layout.ts lines
306-342).  Faithful to the source: the canvases are created with the
hard-coded options `{saveFile:false, exclude:[]}` — the caller's `options`
argument (including its `exclude` list) is never forwarded. -/
def LayoutM.arrayToIiifManifest (env : ImgEnv Buf) (l : LayoutM Buf)
    (options : GenOpts) : Except String IiifManifestM :=
  match gridCanvases env { saveFile := false, outputDir := none, exclude := [] }
      l.array with
  | .error e => .error e
  | .ok items => .ok { id := l.id ++ "-contents", label := l.name, items := items }

/-! ### Concrete instances used by the claims below -/

/-- A benign environment over `Buf := ℕ`: every fetch succeeds, every probe
reports 64×48, resizing is an injective stand-in. -/
def envN : ImgEnv ℕ :=
  { fetch := fun _ => some 1
    probe := fun _ => some { width := 64, height := 48 }
    resize := fun b w => b + w
    resolveAbs := fun s => s }

/-- A flat art object whose source and thumbnail are URL locations. -/
def xA : ArtObjectM ℕ :=
  { id := some "https://g.test/art1"
    source := some (.strLoc "https://g.test/a.jpg")
    thumbnails := [(288, "https://g.test/a-288px.jpg")]
    metadata := [("title", "A")] }

/-- The `Art` the constructor builds from `xA`. -/
def artA : ArtM ℕ :=
  { id := some "https://g.test/art1"
    source := some { id := "https://g.test/a.jpg" }
    sourceName := some "a"
    thumbnails := [(288, { id := "https://g.test/a-288px.jpg" })]
    metadata := [("title", "A")] }

/-- A three-cell layout of `artA` (the spec's "GridLayout with 3 items and
metadata `{title:"A"}`"). -/
def layoutA : LayoutM ℕ := { id := "L1", name := "wall", array := [[artA, artA, artA]] }

/-- An art with a fetchable source and no thumbnails yet. -/
def artP : ArtM ℕ :=
  { id := some "art-2", source := some { id := "pic.jpg" }, sourceName := some "pic" }

/-- The in-memory-only thumbnail resource `generateThumbnail` produces for
`artP` at width 288 under `envN` with `saveFile: false`. -/
def thumbBufRes : ImageResourceM ℕ :=
  { id := "pic-288px.jpeg-buffer", buffer := some 289 }

/-- `artP` after that thumbnail was recorded. -/
def artQ : ArtM ℕ := { artP with thumbnails := [(288, thumbBufRes)] }

/-- A flat art object with an in-memory `Buffer` source and a title. -/
def xB : ArtObjectM ℕ :=
  { id := some "b1", source := some (.bufSrc 5), metadata := [("title", "My Art")] }

/-! ### Claim C4 -/

/-- C4 (the code contradicts the claim): `arrayToIiif` produces the same
Manifest whatever options are passed — the hard-coded
`{saveFile:false, exclude:[]}` replaces them — so converting the three-item
layout `layoutA` with `exclude: ["thumbnails"]` still yields a `thumbnail`
field on every Canvas; the `metadata` field does carry the capitalized
`{label:{en:["Title"]}, value:{en:["A"]}}` pair per Canvas as claimed. -/
theorem arrayToIiif_exclude_ignored :
    (∀ (env : ImgEnv ℕ) (l : LayoutM ℕ) (o1 o2 : GenOpts),
        l.arrayToIiifManifest env o1 = l.arrayToIiifManifest env o2) ∧
      (LayoutM.arrayToIiifManifest envN layoutA
            { saveFile := false, exclude := ["thumbnails"] }).toOption.map
          (fun m => m.items.map fun c => (c.thumbnail.isSome, c.metadata)) =
        some [(true, some [{ label := "Title", value := "A" }]),
          (true, some [{ label := "Title", value := "A" }]),
          (true, some [{ label := "Title", value := "A" }])] :=
  ⟨fun _ _ _ _ => rfl, by decide⟩

/-! ### Claim C5 -/

theorem mkThumbResources_ok (thumbs : List (ℕ × String))
    (h : ∀ p ∈ thumbs, p.2 ≠ "") :
    @mkThumbResources Buf thumbs =
      .ok (thumbs.map fun p => (p.1, { id := p.2 })) := by
  induction thumbs with
  | nil => rfl
  | cons p rest ih =>
      obtain ⟨w, loc⟩ := p
      have hloc : loc ≠ "" := h (w, loc) (List.mem_cons_self _ _)
      rw [mkThumbResources]
      simp only [ImageResourceM.make, resolvePath, if_neg hloc,
        ih fun q hq => h q (List.mem_cons_of_mem _ hq), List.map_cons]

/-- C5: for a valid flat art object whose source and thumbnail entries are
(non-empty) locations, construction followed by `toArtObject` round-trips:
the same id, source location, thumbnail map and metadata come back.
(`resolvePath` is spec-modelled as the identity on location strings.) -/
theorem art_roundtrip (x : ArtObjectM Buf) (s : String)
    (hsrc : x.source = some (.strLoc s)) (hs : s ≠ "")
    (hth : ∀ p ∈ x.thumbnails, p.2 ≠ "") (hid : x.id ≠ some "") :
    ∃ a : ArtM Buf, mkArt x = .ok a ∧
      a.toArtObject =
        some { id := x.id, source := s,
               thumbnails := x.thumbnails, metadata := x.metadata } := by
  have h1 := @mkThumbResources_ok Buf x.thumbnails hth
  have h2 : setArtSource x.source x.metadata =
      .ok ({ id := s }, some (getFileName s)) := by
    rw [hsrc]
    simp only [setArtSource, ImageResourceM.make, resolvePath, if_neg hs]
  have hidEq : (match x.id with
                | some i => if i = "" then none else some i
                | none => none) = x.id := by
    cases hx : x.id with
    | none => rfl
    | some i =>
        have hi : ¬ i = "" := fun hcon => hid (by rw [hx, hcon])
        simp [hi]
  refine ⟨{ id := x.id
            source := some (match x.dimensions with
                            | some d => { id := s, dimensions := some d }
                            | none => { id := s })
            sourceName := some (getFileName s)
            thumbnails := x.thumbnails.map fun p => (p.1, { id := p.2 })
            metadata := x.metadata
            dimensions := x.dimensions }, ?_, ?_⟩
  · unfold mkArt
    rw [h1, h2, hidEq]
  · cases x.dimensions <;>
      simp [ArtM.toArtObject, List.map_map, Function.comp_def]

/-- Closed witness for `art_roundtrip` at the concrete object `xA`. -/
theorem art_roundtrip_witness :
    (xA.source = some (.strLoc "https://g.test/a.jpg") ∧
        "https://g.test/a.jpg" ≠ "" ∧ (∀ p ∈ xA.thumbnails, p.2 ≠ "") ∧
        xA.id ≠ some "") ∧
      ∃ a : ArtM ℕ, mkArt xA = .ok a ∧
        a.toArtObject =
          some { id := xA.id, source := "https://g.test/a.jpg",
                 thumbnails := xA.thumbnails, metadata := xA.metadata } :=
  ⟨⟨by decide, by decide, by decide, by decide⟩,
    art_roundtrip xA "https://g.test/a.jpg" (by decide) (by decide) (by decide)
      (by decide)⟩

/-! ### Claims C7 and C9 -/

/-- C7 counterexample: generating an (unsaved, in-memory-only) thumbnail for
`artP` and then serializing succeeds — `toArtObject` returns a flat object
carrying the synthetic `...-buffer` marker id, instead of failing with a
SerializationError as claimed. -/
theorem toArtObject_no_serialization_error :
    ArtM.createThumbnail envN artP 288 { saveFile := false } =
        .ok (artQ, thumbBufRes) ∧
      strEndsWith thumbBufRes.id "-buffer" = true ∧
      thumbBufRes.buffer.isSome = true ∧
      artQ.toArtObject =
        some { id := some "art-2", source := "pic.jpg",
               thumbnails := [(288, "pic-288px.jpeg-buffer")], metadata := [] } := by
  decide

/-- C7 amended: `toArtObject` performs no unresolved-buffer check and never
raises a SerializationError — after any successful `createThumbnail` (also
with `saveFile: false`, which leaves the bytes only in memory under a
`...-buffer` marker id) serialization succeeds and emits the marker id. -/
theorem toArtObject_succeeds_with_buffers (env : ImgEnv Buf) (a a' : ArtM Buf)
    (r src : ImageResourceM Buf) (w : ℕ) (opts : GenOpts)
    (hsrc : a.source = some src)
    (h : a.createThumbnail env w opts = .ok (a', r)) :
    a'.toArtObject =
      some { id := a.id, source := src.id,
             thumbnails := (a.thumbnails.map fun p => (p.1, p.2.id)) ++ [(w, r.id)],
             metadata := a.metadata } := by
  unfold ArtM.createThumbnail at h
  split at h
  · exact absurd h (by simp)
  · split at h
    · exact absurd h (by simp)
    · split at h
      · exact absurd h (by simp)
      · split at h
        · exact absurd h (by simp)
        · rename_i oscr srcv hsome escr r0 hgen
          simp only [Except.ok.injEq, Prod.mk.injEq] at h
          obtain ⟨ha, hr⟩ := h
          subst hr
          rw [← ha]
          rw [hsome] at hsrc
          have hsrcv : srcv = src := by injection hsrc
          subst hsrcv
          simp [ArtM.toArtObject, hsome, List.map_append]

/-- Closed witness for `toArtObject_succeeds_with_buffers` at `artP`. -/
theorem toArtObject_succeeds_with_buffers_witness :
    (artP.source = some { id := "pic.jpg" } ∧
        ArtM.createThumbnail envN artP 288 { saveFile := false } =
          .ok (artQ, thumbBufRes)) ∧
      artQ.toArtObject =
        some { id := artP.id, source := "pic.jpg",
               thumbnails := (artP.thumbnails.map fun p => (p.1, p.2.id)) ++
                 [(288, thumbBufRes.id)],
               metadata := artP.metadata } :=
  ⟨⟨by decide, by decide⟩,
    toArtObject_succeeds_with_buffers envN artP artQ thumbBufRes { id := "pic.jpg" }
      288 { saveFile := false } (by decide) (by decide)⟩

/-- C9: a successful `createThumbnail` at width `w` makes
`thumbnailExists w` return `true`, and a second `createThumbnail` at the
same width fails with the StateConflict error
`Thumbnail of size <w> already exists for <sourceName>.` instead of
succeeding as a no-op. -/
theorem createThumbnail_once (env : ImgEnv Buf) (a a' : ArtM Buf)
    (r : ImageResourceM Buf) (w : ℕ) (opts : GenOpts)
    (h : a.createThumbnail env w opts = .ok (a', r)) :
    a'.thumbnailExists w = true ∧
      a'.createThumbnail env w opts =
        .error ("Thumbnail of size " ++ toString w ++ " already exists for " ++
          a'.sourceName.getD "undefined" ++ ".") := by
  unfold ArtM.createThumbnail at h
  split at h
  · exact absurd h (by simp)
  · rename_i hw
    split at h
    · exact absurd h (by simp)
    · split at h
      · exact absurd h (by simp)
      · split at h
        · exact absurd h (by simp)
        · rename_i src hsome r0 hgen
          simp only [Except.ok.injEq, Prod.mk.injEq] at h
          obtain ⟨ha, hr⟩ := h
          have hex : a'.thumbnailExists w = true := by
            rw [← ha]
            simp [ArtM.thumbnailExists, List.any_append]
          refine ⟨hex, ?_⟩
          unfold ArtM.createThumbnail
          rw [if_neg hw, if_pos (by rw [hex])]

/-- Closed witness for `createThumbnail_once` at `artP`, width 288. -/
theorem createThumbnail_once_witness :
    ArtM.createThumbnail envN artP 288 { saveFile := false } =
        .ok (artQ, thumbBufRes) ∧
      (artQ.thumbnailExists 288 = true ∧
        ArtM.createThumbnail envN artQ 288 { saveFile := false } =
          .error ("Thumbnail of size " ++ toString 288 ++ " already exists for " ++
            artQ.sourceName.getD "undefined" ++ ".")) :=
  ⟨by decide,
    createThumbnail_once envN artP artQ thumbBufRes 288 { saveFile := false }
      (by decide)⟩

/-! ### Claim C10 -/

/-- C10: no buffer-backed `Art` can be constructed.  Even with
`metadata.title` set (so the title check passes), the buffer branch of
`setArtSource` builds its `ImageResource` with `id: null`, and the
`ImageResource` constructor rejects the missing id. -/
theorem bufferArt_unconstructible (x : ArtObjectM Buf) (b : Buf)
    (hsrc : x.source = some (.bufSrc b))
    (ht : ∃ t, List.lookup "title" x.metadata = some t ∧ t ≠ "")
    (hth : ∀ p ∈ x.thumbnails, p.2 ≠ "") :
    mkArt x = .error "Image resource is missing a required property." := by
  obtain ⟨t, hlk, htne⟩ := ht
  have h2 : setArtSource x.source x.metadata =
      .error "Image resource is missing a required property." := by
    rw [hsrc]
    unfold setArtSource
    rw [hlk]
    simp [htne, ImageResourceM.make]
  unfold mkArt
  rw [@mkThumbResources_ok Buf x.thumbnails hth, h2]

/-- Closed witness for `bufferArt_unconstructible` at the concrete object
`xB` (buffer source `5`, title `"My Art"`). -/
theorem bufferArt_unconstructible_witness :
    (xB.source = some (.bufSrc 5) ∧
        (∃ t, List.lookup "title" xB.metadata = some t ∧ t ≠ "") ∧
        (∀ p ∈ xB.thumbnails, p.2 ≠ "")) ∧
      mkArt xB = .error "Image resource is missing a required property." :=
  ⟨⟨by decide, ⟨"My Art", by decide, by decide⟩, by decide⟩,
    bufferArt_unconstructible xB 5 (by decide) ⟨"My Art", by decide, by decide⟩
      (by decide)⟩

end GalleryImage
